import Mathlib

set_option maxHeartbeats 1000000

/-
Shallow embedding of the Winterfell STARK verifier orchestrator
(src/verifier/src/lib.rs: `verify` and `perform_verification`).

The orchestrator drives external components (the proof channel, the
random coin / transcript, the constraint evaluator, the DEEP composer
and the FRI verifier).  Those components live in other crates or in
submodules that are not part of the source under review, so they are
modelled as opaque function parameters collected in an `Env` record;
the control flow, the ordering of transcript operations, the error
mapping and the out-of-domain consistency computation are translated
from the source line by line.  The embedding additionally returns a
ghost event trace recording every transcript / channel operation in
the order the source performs it, which lets ordering properties be
stated; the event list is write-only ghost state and never influences
the computed result.
-/

namespace Winterfell

/-- Field extension variants of `air::FieldExtension` (None / Quadratic / Cubic). -/
inductive FieldExtension where
  | none
  | quadratic
  | cubic
deriving DecidableEq

/-- Error type mirroring `errors::VerifierError` as used by `verify` and
`perform_verification` (payloads of external errors are dropped). -/
inductive VerifierError where
  | UnsupportedFieldExtension (d : Nat)
  | ProofDeserializationError
  | RandomCoinError
  | InconsistentOodConstraintEvaluations
  | TraceQueryDoesNotMatchCommitment
  | ConstraintQueryDoesNotMatchCommitment
  | QuerySeedProofOfWorkVerificationFailed
  | FriVerificationFailed
deriving DecidableEq

/-- Outcome of a (piece of the) verification run: a value, a typed error, or a
Rust panic (the only panic source in the orchestrator is the `trace_commitments[0]`
indexing on line 151 of src/verifier/src/lib.rs). -/
inductive VOut (α : Type) where
  | ok (a : α)
  | err (e : VerifierError)
  | panic
deriving DecidableEq

/-- One item absorbed into the random coin: a commitment (`reseed`) or a plain
integer (`reseed_with_int`). -/
inductive CoinInput (C : Type) where
  | com (c : C)
  | int (n : Nat)
deriving DecidableEq

/-- The Fiat-Shamir transcript state (`crypto::RandomCoin`): the initial seed
bytes, the ordered list of absorbed inputs standing for the evolving hash-chain
seed, and the draw counter.  The hash itself is external, so the state keeps
the absorbed inputs explicitly; draws are opaque functions of this state. -/
structure RandomCoin (C : Type) where
  seed : List Nat
  absorbed : List (CoinInput C)
  counter : Nat
deriving DecidableEq

/-- `RandomCoin::new(seed)`. -/
def RandomCoin.new {C : Type} (seed : List Nat) : RandomCoin C :=
  RandomCoin.mk seed [] 0

/-- `RandomCoin::reseed(commitment)`: absorb a commitment, reset the counter. -/
def RandomCoin.reseed {C : Type} (coin : RandomCoin C) (c : C) : RandomCoin C :=
  RandomCoin.mk coin.seed (coin.absorbed ++ [CoinInput.com c]) 0

/-- `RandomCoin::reseed_with_int(nonce)`: absorb a plain integer, reset the counter. -/
def RandomCoin.reseedInt {C : Type} (coin : RandomCoin C) (n : Nat) : RandomCoin C :=
  RandomCoin.mk coin.seed (coin.absorbed ++ [CoinInput.int n]) 0

/-- An out-of-domain evaluation frame (`air::EvaluationFrame`): current and next row. -/
structure EvaluationFrame (E : Type) where
  current : List E
  next : List E
deriving DecidableEq

/-- The verifier channel (`channel::VerifierChannel`) after successful
construction: the parsed proof artifacts exposed by the channel's read
operations, in the order the protocol consumes them.  The two query reads
verify openings against commitments internally (external crypto), so they are
opaque fallible functions of the query positions. -/
structure VerifierChannel (E C : Type) where
  traceCommitments : List C
  constraintCommitment : C
  oodMainTraceFrame : EvaluationFrame E
  oodAuxTraceFrame : Option (EvaluationFrame E)
  oodConstraintEvaluations : List E
  powNonce : Nat
  readQueriedTraceStates : List Nat → Except Unit (List (List E) × Option (List (List E)))
  readConstraintEvaluations : List Nat → Except Unit (List (List E))

/-- The state of the external FRI verifier after `FriVerifier::new`; the only
attribute the orchestrator could consult is its domain size. -/
structure FriS where
  domainSize : Nat
deriving DecidableEq

/-- Ghost events recording each transcript / channel operation of the
orchestrator in source order, carrying the values involved. -/
inductive Ev (E C : Type) where
  | serializePubInputs
  | serializeContext
  | airNew
  | coinNew (seed : List Nat)
  | channelNew
  | readTraceCommitments (cs : List C)
  | reseed (c : C)
  | reseedWithInt (n : Nat)
  | drawAuxRand (i : Nat) (es : List E)
  | drawConstraintCoeffs (cs : List E)
  | readConstraintCommitment (c : C)
  | drawZ (z : E)
  | readOodTraceFrame
  | readOodConstraintEvaluations (vs : List E)
  | oodCheck (z : E) (e1 e2 : E)
  | drawDeepCoeffs (cs : List E)
  | friNew
  | readPowNonce (n : Nat)
  | drawQueryPositions (qs : List Nat)
  | readQueriedTraceStates
  | readConstraintEvaluations
  | deepCompose
  | friVerify
deriving DecidableEq

/-- Work belonging to stages 4-7 of the shared verification procedure:
DEEP-coefficient / FRI work, proof-of-work, query-position drawing, opening
reads and DEEP composition. -/
def Ev.isLateWork {E C : Type} : Ev E C → Bool
  | Ev.drawDeepCoeffs _ => true
  | Ev.friNew => true
  | Ev.readPowNonce _ => true
  | Ev.reseedWithInt _ => true
  | Ev.drawQueryPositions _ => true
  | Ev.readQueriedTraceStates => true
  | Ev.readConstraintEvaluations => true
  | Ev.deepCompose => true
  | Ev.friVerify => true
  | _ => false

/-- Transcript (random-coin) operations: construction, reseeds and draws. -/
def Ev.isCoinOp {E C : Type} : Ev E C → Bool
  | Ev.coinNew _ => true
  | Ev.reseed _ => true
  | Ev.reseedWithInt _ => true
  | Ev.drawAuxRand _ _ => true
  | Ev.drawConstraintCoeffs _ => true
  | Ev.drawZ _ => true
  | Ev.drawDeepCoeffs _ => true
  | Ev.drawQueryPositions _ => true
  | Ev.friNew => true
  | _ => false

/-- The external collaborators of `perform_verification`, bundled: the AIR
capability interface (options, coefficient / random-element derivation,
constraint evaluation), the hash function, the random coin's draw primitives,
and the FRI verifier and DEEP composer entry points.  All are opaque pure
functions; draws take and return the coin state. -/
structure Env (E C : Type) where
  grindingFactor : Nat
  numQueries : Nat
  ldeDomainSize : Nat
  tracePolyDegree : Nat
  getAuxTraceSegmentRandomElements : Nat → RandomCoin C → Except Unit (List E × RandomCoin C)
  getConstraintCompositionCoefficients : RandomCoin C → Except Unit (List E × RandomCoin C)
  getDeepCompositionCoefficients : RandomCoin C → Except Unit (List E × RandomCoin C)
  evaluateConstraints : List E → EvaluationFrame E → Option (EvaluationFrame E) →
      List (List E) → E → E
  hashElements : List E → C
  drawE : RandomCoin C → Except Unit (E × RandomCoin C)
  leadingZeros : RandomCoin C → Nat
  nextNat : RandomCoin C → Nat × RandomCoin C
  friNew : VerifierChannel E C → RandomCoin C → Except Unit (FriS × RandomCoin C)
  friVerify : FriS → VerifierChannel E C → List E → List Nat → Except Unit Unit
  composeTraceColumns : List Nat → E → List E → List (List E) → Option (List (List E)) →
      EvaluationFrame E → Option (EvaluationFrame E) → List E
  composeConstraintEvaluations : List Nat → E → List E → List (List E) → List E → List E
  combineCompositions : List Nat → E → List E → List E → List E → List E

/-- Modelled from the spec: `RandomCoin::draw_integers(count, bound)` lives in
the crypto crate, which is not part of the source under review.  Per the spec
it derives `count` distinct pseudo-random indices in `[0, bound)` by rejection
sampling from the coin's pseudo-random stream, failing if insufficiently many
distinct values can be produced within an implementation-defined retry bound.
`fuel` is the remaining number of attempts; each attempt reduces one draw of
the stream modulo `bound` and keeps it only when it is new. -/
def drawIntegersSpec {C : Type} (next : RandomCoin C → Nat × RandomCoin C)
    (bound count : Nat) : Nat → List Nat → RandomCoin C →
    Except Unit (List Nat × RandomCoin C)
  | 0, values, coin =>
      if values.length = count then Except.ok (values, coin) else Except.error ()
  | fuel + 1, values, coin =>
      if values.length = count then Except.ok (values, coin)
      else
        let vc := next coin
        let value := vc.1 % bound
        if value ∈ values then drawIntegersSpec next bound count fuel values vc.2
        else drawIntegersSpec next bound count fuel (values ++ [value]) vc.2

/-- The retry bound of the rejection sampler (implementation-defined constant). -/
def drawIntegersAttempts : Nat := 1000

/-- Reduction of the out-of-domain constraint-composition-column evaluations
into a single value, translated from src/verifier/src/lib.rs lines 219-224:
`fold(E::ZERO, |result, (i, &value)| result + z.exp_vartime(i) * value)` over
the enumerated evaluations. -/
def oodConstraintEvaluation2 {E : Type} [CommRing E] (z : E) (vs : List E) : E :=
  (vs.enum).foldl (fun result iv => result + z ^ iv.1 * iv.2) 0

/-- Output of stage 1 (trace commitment): the per-auxiliary-segment random
elements, the constraint-composition coefficients, and the coin state. -/
structure Stage1Out (E C : Type) where
  auxRand : List (List E)
  constraintCoeffs : List E
  coin : RandomCoin C
deriving DecidableEq

/-- Output of stage 2 (constraint commitment): the out-of-domain point `z`
and the coin state. -/
structure Stage2Out (E C : Type) where
  z : E
  coin : RandomCoin C
deriving DecidableEq

/-- The auxiliary-segment loop of stage 1 (src/verifier/src/lib.rs lines
155-161): for each auxiliary commitment, draw that segment's random elements
from the current coin, then reseed with the commitment.  Returns the random
elements in segment order, the final coin, and the events of the loop. -/
def processAuxSegments {E C : Type} (env : Env E C) :
    List C → Nat → RandomCoin C →
    Except VerifierError (List (List E) × RandomCoin C) × List (Ev E C)
  | [], _, coin => (Except.ok ([], coin), [])
  | c :: rest, i, coin =>
      match env.getAuxTraceSegmentRandomElements i coin with
      | Except.error _ => (Except.error VerifierError.RandomCoinError, [])
      | Except.ok (es, coin1) =>
          let coin2 := coin1.reseed c
          match processAuxSegments env rest (i + 1) coin2 with
          | (Except.ok (auxs, coin3), evs) =>
              (Except.ok (es :: auxs, coin3), Ev.drawAuxRand i es :: Ev.reseed c :: evs)
          | (Except.error e, evs) =>
              (Except.error e, Ev.drawAuxRand i es :: Ev.reseed c :: evs)

/-- The event pattern of the auxiliary-segment loop: for segment `i` the draw
of its random elements followed by the reseed with its commitment. -/
def auxSegmentEvents {E C : Type} : List (List E) → List C → Nat → List (Ev E C)
  | es :: draws, c :: cs, i =>
      Ev.drawAuxRand i es :: Ev.reseed c :: auxSegmentEvents draws cs (i + 1)
  | _, _, _ => []

/-- Stage 1 (trace commitment), src/verifier/src/lib.rs lines 139-166: read the
trace commitments, reseed with the main commitment (`trace_commitments[0]`,
the sole panic source when the list is empty), run the auxiliary-segment loop,
and draw the constraint-composition coefficients. -/
def stage1 {E C : Type} (env : Env E C) (ch : VerifierChannel E C)
    (coin : RandomCoin C) : VOut (Stage1Out E C) × List (Ev E C) :=
  let evs0 : List (Ev E C) := [Ev.readTraceCommitments ch.traceCommitments]
  match ch.traceCommitments with
  | [] => (VOut.panic, evs0)
  | c0 :: rest =>
      let coin1 := coin.reseed c0
      let evs1 := evs0 ++ [Ev.reseed c0]
      match processAuxSegments env rest 0 coin1 with
      | (Except.error e, evs2) => (VOut.err e, evs1 ++ evs2)
      | (Except.ok (auxs, coin2), evs2) =>
          match env.getConstraintCompositionCoefficients coin2 with
          | Except.error _ => (VOut.err VerifierError.RandomCoinError, evs1 ++ evs2)
          | Except.ok (ccoeffs, coin3) =>
              (VOut.ok (Stage1Out.mk auxs ccoeffs coin3),
               evs1 ++ evs2 ++ [Ev.drawConstraintCoeffs ccoeffs])

/-- Stage 2 (constraint commitment), src/verifier/src/lib.rs lines 168-178:
read the constraint commitment, reseed with it, draw the out-of-domain point. -/
def stage2 {E C : Type} (env : Env E C) (ch : VerifierChannel E C)
    (coin : RandomCoin C) : VOut (Stage2Out E C) × List (Ev E C) :=
  let cc := ch.constraintCommitment
  let coin1 := coin.reseed cc
  let evs1 : List (Ev E C) := [Ev.readConstraintCommitment cc, Ev.reseed cc]
  match env.drawE coin1 with
  | Except.error _ => (VOut.err VerifierError.RandomCoinError, evs1)
  | Except.ok (z, coin2) => (VOut.ok (Stage2Out.mk z coin2), evs1 ++ [Ev.drawZ z])

/-- Stage 3 (OOD consistency check), src/verifier/src/lib.rs lines 180-230:
read the OOD trace frame, evaluate the constraints over it, reseed with the
hashes of the (main ++ auxiliary) current and next rows, read the OOD
constraint-composition-column evaluations, reduce them with powers of `z`,
reseed with their hash, and fail when the two values disagree. -/
def stage3 {E C : Type} [CommRing E] [DecidableEq E] (env : Env E C)
    (ch : VerifierChannel E C) (auxRand : List (List E)) (ccoeffs : List E)
    (z : E) (coin : RandomCoin C) : VOut (RandomCoin C) × List (Ev E C) :=
  let frame := ch.oodMainTraceFrame
  let auxFrame := ch.oodAuxTraceFrame
  let e1 := env.evaluateConstraints ccoeffs frame auxFrame auxRand z
  let coin1 :=
    match auxFrame with
    | some af =>
        (coin.reseed (env.hashElements (frame.current ++ af.current))).reseed
          (env.hashElements (frame.next ++ af.next))
    | none =>
        (coin.reseed (env.hashElements frame.current)).reseed
          (env.hashElements frame.next)
  let evs1 : List (Ev E C) :=
    match auxFrame with
    | some af =>
        [Ev.readOodTraceFrame,
         Ev.reseed (env.hashElements (frame.current ++ af.current)),
         Ev.reseed (env.hashElements (frame.next ++ af.next))]
    | none =>
        [Ev.readOodTraceFrame,
         Ev.reseed (env.hashElements frame.current),
         Ev.reseed (env.hashElements frame.next)]
  let vs := ch.oodConstraintEvaluations
  let e2 := oodConstraintEvaluation2 z vs
  let coin2 := coin1.reseed (env.hashElements vs)
  let evs2 := evs1 ++
    [Ev.readOodConstraintEvaluations vs, Ev.reseed (env.hashElements vs),
     Ev.oodCheck z e1 e2]
  if e1 ≠ e2 then (VOut.err VerifierError.InconsistentOodConstraintEvaluations, evs2)
  else (VOut.ok coin2, evs2)

/-- Stage 4 (FRI commitments), src/verifier/src/lib.rs lines 232-255: draw the
DEEP composition coefficients, then construct the FRI verifier (which reads the
layer commitments from the channel and reseeds the coin internally). -/
def stage4 {E C : Type} (env : Env E C) (ch : VerifierChannel E C)
    (coin : RandomCoin C) : VOut (List E × FriS × RandomCoin C) × List (Ev E C) :=
  match env.getDeepCompositionCoefficients coin with
  | Except.error _ => (VOut.err VerifierError.RandomCoinError, [])
  | Except.ok (dc, coin1) =>
      let evs1 : List (Ev E C) := [Ev.drawDeepCoeffs dc]
      match env.friNew ch coin1 with
      | Except.error _ => (VOut.err VerifierError.FriVerificationFailed, evs1)
      | Except.ok (fri, coin2) => (VOut.ok (dc, fri, coin2), evs1 ++ [Ev.friNew])

/-- Stage 5 (trace and constraint queries), src/verifier/src/lib.rs lines
257-273: read the proof-of-work nonce, reseed with it as a plain integer, fail
when the leading-zero count is below the grinding factor, then draw the query
positions. -/
def stage5 {E C : Type} (env : Env E C) (ch : VerifierChannel E C)
    (coin : RandomCoin C) : VOut (List Nat × RandomCoin C) × List (Ev E C) :=
  let nonce := ch.powNonce
  let coin1 := coin.reseedInt nonce
  let evs1 : List (Ev E C) := [Ev.readPowNonce nonce, Ev.reseedWithInt nonce]
  if env.leadingZeros coin1 < env.grindingFactor then
    (VOut.err VerifierError.QuerySeedProofOfWorkVerificationFailed, evs1)
  else
    match drawIntegersSpec env.nextNat env.ldeDomainSize env.numQueries
        drawIntegersAttempts [] coin1 with
    | Except.error _ => (VOut.err VerifierError.RandomCoinError, evs1)
    | Except.ok (qs, coin2) =>
        (VOut.ok (qs, coin2), evs1 ++ [Ev.drawQueryPositions qs])

/-- Stage 6 (opening reads), src/verifier/src/lib.rs lines 275-279: read and
commitment-verify the queried trace rows and constraint evaluations; per the
spec each failed binding surfaces the specific query-verification error. -/
def stage6 {E C : Type} (ch : VerifierChannel E C) (qs : List Nat) :
    VOut (List (List E) × Option (List (List E)) × List (List E)) × List (Ev E C) :=
  match ch.readQueriedTraceStates qs with
  | Except.error _ => (VOut.err VerifierError.TraceQueryDoesNotMatchCommitment, [])
  | Except.ok (mainStates, auxStates) =>
      let evs1 : List (Ev E C) := [Ev.readQueriedTraceStates]
      match ch.readConstraintEvaluations qs with
      | Except.error _ =>
          (VOut.err VerifierError.ConstraintQueryDoesNotMatchCommitment, evs1)
      | Except.ok ces =>
          (VOut.ok (mainStates, auxStates, ces), evs1 ++ [Ev.readConstraintEvaluations])

/-- Stages 6-7 tail (DEEP composition and the low-degree test),
src/verifier/src/lib.rs lines 281-299. -/
def stage7 {E C : Type} (env : Env E C) (ch : VerifierChannel E C)
    (qs : List Nat) (z : E) (dc : List E) (mainStates : List (List E))
    (auxStates : Option (List (List E))) (ces : List (List E)) (fri : FriS) :
    VOut Unit × List (Ev E C) :=
  let tComposition := env.composeTraceColumns qs z dc mainStates auxStates
    ch.oodMainTraceFrame ch.oodAuxTraceFrame
  let cComposition := env.composeConstraintEvaluations qs z dc ces
    ch.oodConstraintEvaluations
  let deepEvaluations := env.combineCompositions qs z dc tComposition cComposition
  let evs1 : List (Ev E C) := [Ev.deepCompose]
  match env.friVerify fri ch deepEvaluations qs with
  | Except.error _ => (VOut.err VerifierError.FriVerificationFailed, evs1 ++ [Ev.friVerify])
  | Except.ok _ => (VOut.ok (), evs1 ++ [Ev.friVerify])

/-- The shared verification procedure `perform_verification`
(src/verifier/src/lib.rs lines 129-300): the seven stages chained in order,
each stage's failure terminal, events concatenated in execution order. -/
def performVerification {E C : Type} [CommRing E] [DecidableEq E]
    (env : Env E C) (ch : VerifierChannel E C) (coin : RandomCoin C) :
    VOut Unit × List (Ev E C) :=
  match stage1 env ch coin with
  | (VOut.err e, evs1) => (VOut.err e, evs1)
  | (VOut.panic, evs1) => (VOut.panic, evs1)
  | (VOut.ok s1, evs1) =>
      match stage2 env ch s1.coin with
      | (VOut.err e, evs2) => (VOut.err e, evs1 ++ evs2)
      | (VOut.panic, evs2) => (VOut.panic, evs1 ++ evs2)
      | (VOut.ok s2, evs2) =>
          match stage3 env ch s1.auxRand s1.constraintCoeffs s2.z s2.coin with
          | (VOut.err e, evs3) => (VOut.err e, evs1 ++ evs2 ++ evs3)
          | (VOut.panic, evs3) => (VOut.panic, evs1 ++ evs2 ++ evs3)
          | (VOut.ok coin3, evs3) =>
              match stage4 env ch coin3 with
              | (VOut.err e, evs4) => (VOut.err e, evs1 ++ evs2 ++ evs3 ++ evs4)
              | (VOut.panic, evs4) => (VOut.panic, evs1 ++ evs2 ++ evs3 ++ evs4)
              | (VOut.ok (dc, fri, coin4), evs4) =>
                  match stage5 env ch coin4 with
                  | (VOut.err e, evs5) =>
                      (VOut.err e, evs1 ++ evs2 ++ evs3 ++ evs4 ++ evs5)
                  | (VOut.panic, evs5) =>
                      (VOut.panic, evs1 ++ evs2 ++ evs3 ++ evs4 ++ evs5)
                  | (VOut.ok (qs, _coin5), evs5) =>
                      match stage6 ch qs with
                      | (VOut.err e, evs6) =>
                          (VOut.err e, evs1 ++ evs2 ++ evs3 ++ evs4 ++ evs5 ++ evs6)
                      | (VOut.panic, evs6) =>
                          (VOut.panic, evs1 ++ evs2 ++ evs3 ++ evs4 ++ evs5 ++ evs6)
                      | (VOut.ok (mainStates, auxStates, ces), evs6) =>
                          match stage7 env ch qs s2.z dc mainStates auxStates ces fri with
                          | (res, evs7) =>
                              (res, evs1 ++ evs2 ++ evs3 ++ evs4 ++ evs5 ++ evs6 ++ evs7)

/-- Result of a whole `verify` call: the outcome, the initial transcript seed
that was built, and the event trace. -/
structure RunOut (E C : Type) where
  result : VOut Unit
  seed : List Nat
  events : List (Ev E C)

/-- The statically fixed data of one `verify` call: the public-input
serializer, the proof's serialized context, the extension degree the
instantiated AIR declares, whether the base field supports the quadratic and
cubic extension constructions, the result of `VerifierChannel::new` for this
proof, and the environment of the shared procedure. -/
structure VerifyEnv (E C PI : Type) where
  serializePI : PI → List Nat
  proofContextBytes : List Nat
  airFieldExtension : FieldExtension
  quadSupported : Bool
  cubeSupported : Bool
  channelNew : Except VerifierError (VerifierChannel E C)
  env : Env E C

/-- The monomorphized tail of `verify` shared by the three extension branches:
construct the random coin from the seed, construct the channel (propagating
its structural error), and run the shared verification procedure. -/
def verifyRun {E C PI : Type} [CommRing E] [DecidableEq E]
    (V : VerifyEnv E C PI) (seed : List Nat) (evs : List (Ev E C)) : RunOut E C :=
  let coin : RandomCoin C := RandomCoin.new seed
  let evs1 := evs ++ [Ev.coinNew seed]
  match V.channelNew with
  | Except.error e => RunOut.mk (VOut.err e) seed evs1
  | Except.ok ch =>
      match performVerification V.env ch coin with
      | (res, evs2) => RunOut.mk res seed (evs1 ++ [Ev.channelNew] ++ evs2)

/-- The orchestrator `verify` (src/verifier/src/lib.rs lines 84-123): build the
initial transcript seed by serializing the public inputs and then the proof's
context, instantiate the AIR, branch on the declared field extension (failing
when the base field lacks the declared construction), and run the shared
verification procedure. -/
def verify {E C PI : Type} [CommRing E] [DecidableEq E]
    (V : VerifyEnv E C PI) (pubInputs : PI) : RunOut E C :=
  let seed := V.serializePI pubInputs ++ V.proofContextBytes
  let evs0 : List (Ev E C) := [Ev.serializePubInputs, Ev.serializeContext, Ev.airNew]
  match V.airFieldExtension with
  | FieldExtension.none => verifyRun V seed evs0
  | FieldExtension.quadratic =>
      if V.quadSupported then verifyRun V seed evs0
      else RunOut.mk (VOut.err (VerifierError.UnsupportedFieldExtension 2)) seed evs0
  | FieldExtension.cubic =>
      if V.cubeSupported then verifyRun V seed evs0
      else RunOut.mk (VOut.err (VerifierError.UnsupportedFieldExtension 3)) seed evs0

/-- Modelled from the spec: `VerifierChannel::new` (src/verifier/src/channel.rs
is not part of the source under review) validates that every field of the
proof is present and internally size-consistent with the context before any
cryptographic check begins; a malformed shape is a structural error.  In
particular the number of trace commitments must equal the number of trace
segments declared by the context. -/
def channelNewSpec {E C : Type} (numSegments : Nat) (raw : VerifierChannel E C) :
    Except VerifierError (VerifierChannel E C) :=
  if raw.traceCommitments.length = numSegments then Except.ok raw
  else Except.error VerifierError.ProofDeserializationError

/-- Concrete environment over `Int` used to exercise the embedding on explicit
inputs: trivial external components, grinding factor 0, one query over an LDE
domain of size 8, and a FRI verifier whose domain size is the parameter `d`. -/
def envFri (d : Nat) : Env Int Int :=
  Env.mk 0 1 8 7
    (fun _ coin => Except.ok ([], coin))
    (fun coin => Except.ok ([], coin))
    (fun coin => Except.ok ([], coin))
    (fun _ _ _ _ _ => 0)
    (fun _ => 0)
    (fun coin => Except.ok (0, coin))
    (fun _ => 0)
    (fun coin => (0, coin))
    (fun _ coin => Except.ok (FriS.mk d, coin))
    (fun _ _ _ _ => Except.ok ())
    (fun _ _ _ _ _ _ _ => [])
    (fun _ _ _ _ _ => [])
    (fun _ _ _ _ _ => [])

/-- The concrete environment with FRI domain size 7 (distinct from the
AIR-declared LDE domain size 8). -/
def envTriv : Env Int Int := envFri 7

/-- A concrete well-formed channel over `Int`: one trace segment, no auxiliary
frame, empty OOD constraint-evaluation list, trivially succeeding opening reads. -/
def chTriv : VerifierChannel Int Int :=
  VerifierChannel.mk [5] 6 (EvaluationFrame.mk [1] [2]) none [] 0
    (fun _ => Except.ok ([], none))
    (fun _ => Except.ok [])

/-- A concrete initial coin. -/
def coinTriv : RandomCoin Int := RandomCoin.new []

/-- A concrete `verify` environment over the trivial components whose channel
construction succeeds. -/
def verifyEnvTriv : VerifyEnv Int Int Unit :=
  VerifyEnv.mk (fun _ => [1, 2]) [3, 4] FieldExtension.none true true
    (Except.ok chTriv) envTriv

/-- The enumerated fold over a list of evaluations, started at index `k` and
accumulator `a`, equals `a` plus the power-weighted sum of the list. -/
theorem foldl_enumFrom_pow_sum {E : Type} [CommRing E] (z : E) (vs : List E) :
    ∀ (k : Nat) (a : E),
      (List.enumFrom k vs).foldl (fun result iv => result + z ^ iv.1 * iv.2) a
        = a + ∑ i in Finset.range vs.length, z ^ (k + i) * vs.getD i 0 := by
  induction vs with
  | nil => intro k a; simp [List.enumFrom]
  | cons v vs ih =>
      intro k a
      simp only [List.enumFrom, List.foldl_cons]
      rw [ih (k + 1) (a + z ^ k * v)]
      rw [List.length_cons, Finset.sum_range_succ']
      have hsum : ∑ i in Finset.range vs.length, z ^ (k + 1 + i) * vs.getD i 0
          = ∑ i in Finset.range vs.length, z ^ (k + (i + 1)) * ((v :: vs).getD (i + 1) 0) := by
        refine Finset.sum_congr rfl (fun i _ => ?_)
        rw [Nat.add_right_comm, Nat.add_assoc]
        rfl
      rw [hsum]
      simp only [List.getD_cons_zero, Nat.add_zero]
      ring

/-- The source's enumerate-and-fold reduction of the OOD constraint-composition
evaluations computes the sum over `i` of `z^i` times the `i`-th evaluation. -/
theorem oodConstraintEvaluation2_eq_sum {E : Type} [CommRing E] (z : E) (vs : List E) :
    oodConstraintEvaluation2 z vs
      = ∑ i in Finset.range vs.length, z ^ i * vs.getD i 0 := by
  unfold oodConstraintEvaluation2
  have h := foldl_enumFrom_pow_sum z vs 0 0
  simp only [Nat.zero_add, zero_add] at h
  exact h

/-- Invariant of the rejection sampler: starting from a duplicate-free
accumulator of in-range values, a successful run returns exactly `count`
duplicate-free values, all strictly below `bound`. -/
theorem drawIntegersSpec_ok {C : Type} (next : RandomCoin C → Nat × RandomCoin C)
    (bound count : Nat) (hb : 0 < bound) :
    ∀ (fuel : Nat) (acc : List Nat) (coin : RandomCoin C) (qs : List Nat)
      (coin' : RandomCoin C),
      acc.Nodup → (∀ x ∈ acc, x < bound) →
      drawIntegersSpec next bound count fuel acc coin = Except.ok (qs, coin') →
      qs.length = count ∧ qs.Nodup ∧ ∀ x ∈ qs, x < bound := by
  intro fuel
  induction fuel with
  | zero =>
      intro acc coin qs coin' hnd hlt h
      unfold drawIntegersSpec at h
      by_cases hl : acc.length = count
      · simp only [hl, if_true] at h
        cases h
        exact ⟨hl, hnd, hlt⟩
      · simp only [hl, if_false] at h
        cases h
  | succ fuel ih =>
      intro acc coin qs coin' hnd hlt h
      unfold drawIntegersSpec at h
      by_cases hl : acc.length = count
      · simp only [hl, if_true] at h
        cases h
        exact ⟨hl, hnd, hlt⟩
      · simp only [hl, if_false] at h
        by_cases hmem : (next coin).1 % bound ∈ acc
        · simp only [hmem, if_true] at h
          exact ih acc (next coin).2 qs coin' hnd hlt h
        · simp only [hmem, if_false] at h
          refine ih (acc ++ [(next coin).1 % bound]) (next coin).2 qs coin' ?_ ?_ h
          · simp [List.nodup_append, hnd, List.disjoint_singleton, hmem]
          · intro x hx
            rcases List.mem_append.mp hx with hx1 | hx2
            · exact hlt x hx1
            · rcases List.mem_singleton.mp hx2 with rfl
              exact Nat.mod_lt _ hb

section StageLemmas

variable {E C : Type} [CommRing E] [DecidableEq E]

/-- The auxiliary-segment loop never panics and its only error is the
random-coin error. -/
theorem processAuxSegments_error (env : Env E C) :
    ∀ (cs : List C) (i : Nat) (coin : RandomCoin C) (e : VerifierError),
      (processAuxSegments env cs i coin).1 = Except.error e →
      e = VerifierError.RandomCoinError := by
  intro cs
  induction cs with
  | nil => intro i coin e h; simp [processAuxSegments] at h
  | cons c rest ih =>
      intro i coin e h
      unfold processAuxSegments at h
      rcases hdraw : env.getAuxTraceSegmentRandomElements i coin with he | ⟨es, coin1⟩
      · rw [hdraw] at h
        simp at h
        exact h.symm
      · rw [hdraw] at h
        simp only at h
        rcases hrec : processAuxSegments env rest (i + 1) (coin1.reseed c) with ⟨r, evs⟩
        rw [hrec] at h
        cases r with
        | error e2 =>
            simp at h
            have h2 := ih (i + 1) (coin1.reseed c) e2
            rw [hrec] at h2
            rw [← h]
            exact h2 rfl
        | ok p => simp at h

/-- Stage 1 panics exactly when the list of trace commitments is empty. -/
theorem stage1_panic_iff (env : Env E C) (ch : VerifierChannel E C)
    (coin : RandomCoin C) :
    (stage1 env ch coin).1 = VOut.panic ↔ ch.traceCommitments = [] := by
  unfold stage1
  rcases hcs : ch.traceCommitments with _ | ⟨c0, rest⟩
  · simp
  · simp only
    rcases hrec : processAuxSegments env rest 0 (coin.reseed c0) with ⟨r, evs⟩
    cases r with
    | error e => simp
    | ok p =>
        rcases p with ⟨auxs, coin2⟩
        simp only
        rcases hcc : env.getConstraintCompositionCoefficients coin2 with he | ⟨ccoeffs, coin3⟩
        · simp
        · simp

/-- Stage 1 errors are always the random-coin error. -/
theorem stage1_error (env : Env E C) (ch : VerifierChannel E C)
    (coin : RandomCoin C) (e : VerifierError)
    (h : (stage1 env ch coin).1 = VOut.err e) :
    e = VerifierError.RandomCoinError := by
  unfold stage1 at h
  rcases hcs : ch.traceCommitments with _ | ⟨c0, rest⟩
  · rw [hcs] at h; simp at h
  · rw [hcs] at h
    simp only at h
    rcases hrec : processAuxSegments env rest 0 (coin.reseed c0) with ⟨r, evs⟩
    rw [hrec] at h
    cases r with
    | error e2 =>
        simp at h
        have h2 := processAuxSegments_error env rest 0 (coin.reseed c0) e2
        rw [hrec] at h2
        rw [← h]
        exact h2 rfl
    | ok p =>
        rcases p with ⟨auxs, coin2⟩
        simp only at h
        rcases hcc : env.getConstraintCompositionCoefficients coin2 with he | ⟨ccoeffs, coin3⟩
        · rw [hcc] at h; simp at h; exact h.symm
        · rw [hcc] at h; simp at h

/-- Stage 2 never panics and its only error is the random-coin error. -/
theorem stage2_result (env : Env E C) (ch : VerifierChannel E C)
    (coin : RandomCoin C) :
    (stage2 env ch coin).1 ≠ VOut.panic ∧
      ∀ e, (stage2 env ch coin).1 = VOut.err e → e = VerifierError.RandomCoinError := by
  unfold stage2
  dsimp only
  rcases hdraw : env.drawE (coin.reseed ch.constraintCommitment) with he | ⟨z, coin2⟩
  · simp [hdraw]
  · simp [hdraw]

/-- Stage 3 never panics, and it returns an error exactly when the two OOD
constraint evaluations disagree, in which case the error is the inconsistency
error. -/
theorem stage3_result (env : Env E C) (ch : VerifierChannel E C)
    (auxRand : List (List E)) (ccoeffs : List E) (z : E) (coin : RandomCoin C) :
    (stage3 env ch auxRand ccoeffs z coin).1 ≠ VOut.panic ∧
      ((stage3 env ch auxRand ccoeffs z coin).1
          = VOut.err VerifierError.InconsistentOodConstraintEvaluations
        ↔ env.evaluateConstraints ccoeffs ch.oodMainTraceFrame ch.oodAuxTraceFrame auxRand z
          ≠ oodConstraintEvaluation2 z ch.oodConstraintEvaluations) ∧
      ∀ e, (stage3 env ch auxRand ccoeffs z coin).1 = VOut.err e →
        e = VerifierError.InconsistentOodConstraintEvaluations := by
  unfold stage3
  by_cases h : env.evaluateConstraints ccoeffs ch.oodMainTraceFrame ch.oodAuxTraceFrame auxRand z
      = oodConstraintEvaluation2 z ch.oodConstraintEvaluations
  · simp [h]
  · simp [h]

/-- Stage 4 never panics and its errors are the random-coin error or the FRI
failure. -/
theorem stage4_result (env : Env E C) (ch : VerifierChannel E C)
    (coin : RandomCoin C) :
    (stage4 env ch coin).1 ≠ VOut.panic ∧
      ∀ e, (stage4 env ch coin).1 = VOut.err e →
        e = VerifierError.RandomCoinError ∨ e = VerifierError.FriVerificationFailed := by
  unfold stage4
  rcases hdc : env.getDeepCompositionCoefficients coin with he | ⟨dc, coin1⟩
  · simp
  · simp only
    rcases hfri : env.friNew ch coin1 with he | ⟨fri, coin2⟩
    · simp
    · simp

/-- Stage 5 never panics; its errors are the proof-of-work failure or the
random-coin error, and the proof-of-work failure occurs exactly when the
leading-zero count after the nonce reseed is below the grinding factor. -/
theorem stage5_result (env : Env E C) (ch : VerifierChannel E C)
    (coin : RandomCoin C) :
    (stage5 env ch coin).1 ≠ VOut.panic ∧
      ((stage5 env ch coin).1 = VOut.err VerifierError.QuerySeedProofOfWorkVerificationFailed
        ↔ env.leadingZeros (coin.reseedInt ch.powNonce) < env.grindingFactor) ∧
      ∀ e, (stage5 env ch coin).1 = VOut.err e →
        e = VerifierError.QuerySeedProofOfWorkVerificationFailed ∨
          e = VerifierError.RandomCoinError := by
  unfold stage5
  by_cases hpow : env.leadingZeros (coin.reseedInt ch.powNonce) < env.grindingFactor
  · simp [hpow]
  · simp only [hpow, if_false]
    rcases hdraw : drawIntegersSpec env.nextNat env.ldeDomainSize env.numQueries
        drawIntegersAttempts [] (coin.reseedInt ch.powNonce) with he | ⟨qs, coin2⟩
    · simp [hpow]
    · simp [hpow]

/-- Stage 6 never panics and its errors are the two query-verification errors. -/
theorem stage6_result (ch : VerifierChannel E C) (qs : List Nat) :
    (stage6 ch qs).1 ≠ VOut.panic ∧
      ∀ e, (stage6 ch qs).1 = VOut.err e →
        e = VerifierError.TraceQueryDoesNotMatchCommitment ∨
          e = VerifierError.ConstraintQueryDoesNotMatchCommitment := by
  unfold stage6
  rcases h1 : ch.readQueriedTraceStates qs with he | ⟨mainStates, auxStates⟩
  · simp
  · simp only
    rcases h2 : ch.readConstraintEvaluations qs with he | ces
    · simp
    · simp

/-- Stage 7 never panics and its only error is the FRI failure. -/
theorem stage7_result (env : Env E C) (ch : VerifierChannel E C)
    (qs : List Nat) (z : E) (dc : List E) (mainStates : List (List E))
    (auxStates : Option (List (List E))) (ces : List (List E)) (fri : FriS) :
    (stage7 env ch qs z dc mainStates auxStates ces fri).1 ≠ VOut.panic ∧
      ∀ e, (stage7 env ch qs z dc mainStates auxStates ces fri).1 = VOut.err e →
        e = VerifierError.FriVerificationFailed := by
  unfold stage7
  dsimp only
  rcases h : env.friVerify fri ch
      (env.combineCompositions qs z dc
        (env.composeTraceColumns qs z dc mainStates auxStates ch.oodMainTraceFrame
          ch.oodAuxTraceFrame)
        (env.composeConstraintEvaluations qs z dc ces ch.oodConstraintEvaluations)) qs
      with he | u
  · simp [h]
  · simp [h]

/-- Events of the auxiliary-segment loop are never stage-4-or-later work. -/
theorem processAuxSegments_events_early (env : Env E C) :
    ∀ (cs : List C) (i : Nat) (coin : RandomCoin C),
      ∀ ev ∈ (processAuxSegments env cs i coin).2, ev.isLateWork = false := by
  intro cs
  induction cs with
  | nil => intro i coin ev hev; simp [processAuxSegments] at hev
  | cons c rest ih =>
      intro i coin ev hev
      unfold processAuxSegments at hev
      rcases hdraw : env.getAuxTraceSegmentRandomElements i coin with he | ⟨es, coin1⟩
      · rw [hdraw] at hev; simp at hev
      · rw [hdraw] at hev
        simp only at hev
        rcases hrec : processAuxSegments env rest (i + 1) (coin1.reseed c) with ⟨r, evs⟩
        rw [hrec] at hev
        have hmem : ev = Ev.drawAuxRand i es ∨ ev = Ev.reseed c ∨ ev ∈ evs := by
          cases r with
          | error e2 => simp at hev; tauto
          | ok p => simp at hev; tauto
        rcases hmem with rfl | rfl | hmem
        · rfl
        · rfl
        · have h2 := ih (i + 1) (coin1.reseed c) ev
          rw [hrec] at h2
          exact h2 hmem

/-- Events of stage 1 are never stage-4-or-later work. -/
theorem stage1_events_early (env : Env E C) (ch : VerifierChannel E C)
    (coin : RandomCoin C) :
    ∀ ev ∈ (stage1 env ch coin).2, ev.isLateWork = false := by
  intro ev hev
  unfold stage1 at hev
  rcases hcs : ch.traceCommitments with _ | ⟨c0, rest⟩
  · rw [hcs] at hev; simp at hev; rcases hev with rfl; rfl
  · rw [hcs] at hev
    simp only at hev
    rcases hrec : processAuxSegments env rest 0 (coin.reseed c0) with ⟨r, evs⟩
    rw [hrec] at hev
    have haux := processAuxSegments_events_early env rest 0 (coin.reseed c0)
    rw [hrec] at haux
    cases r with
    | error e2 =>
        simp at hev
        rcases hev with rfl | rfl | hmem
        · rfl
        · rfl
        · exact haux ev hmem
    | ok p =>
        rcases p with ⟨auxs, coin2⟩
        simp only at hev
        rcases hcc : env.getConstraintCompositionCoefficients coin2 with he | ⟨ccoeffs, coin3⟩
        · rw [hcc] at hev
          simp at hev
          rcases hev with rfl | rfl | hmem
          · rfl
          · rfl
          · exact haux ev hmem
        · rw [hcc] at hev
          simp at hev
          rcases hev with rfl | rfl | hmem | rfl
          · rfl
          · rfl
          · exact haux ev hmem
          · rfl

/-- Events of stage 2 are never stage-4-or-later work. -/
theorem stage2_events_early (env : Env E C) (ch : VerifierChannel E C)
    (coin : RandomCoin C) :
    ∀ ev ∈ (stage2 env ch coin).2, ev.isLateWork = false := by
  intro ev hev
  unfold stage2 at hev
  dsimp only at hev
  rcases hdraw : env.drawE (coin.reseed ch.constraintCommitment) with he | ⟨z, coin2⟩
  · rw [hdraw] at hev
    simp at hev
    rcases hev with rfl | rfl <;> rfl
  · rw [hdraw] at hev
    simp at hev
    rcases hev with rfl | rfl | rfl <;> rfl

/-- Events of stage 3 are never stage-4-or-later work. -/
theorem stage3_events_early (env : Env E C) (ch : VerifierChannel E C)
    (auxRand : List (List E)) (ccoeffs : List E) (z : E) (coin : RandomCoin C) :
    ∀ ev ∈ (stage3 env ch auxRand ccoeffs z coin).2, ev.isLateWork = false := by
  intro ev hev
  unfold stage3 at hev
  dsimp only at hev
  rcases haf : ch.oodAuxTraceFrame with _ | af
  · rw [haf] at hev
    by_cases h : env.evaluateConstraints ccoeffs ch.oodMainTraceFrame none auxRand z
        = oodConstraintEvaluation2 z ch.oodConstraintEvaluations
    · simp [h] at hev
      rcases hev with rfl | rfl | rfl | rfl | rfl | rfl <;> rfl
    · simp [h] at hev
      rcases hev with rfl | rfl | rfl | rfl | rfl | rfl <;> rfl
  · rw [haf] at hev
    by_cases h : env.evaluateConstraints ccoeffs ch.oodMainTraceFrame (some af) auxRand z
        = oodConstraintEvaluation2 z ch.oodConstraintEvaluations
    · simp [h] at hev
      rcases hev with rfl | rfl | rfl | rfl | rfl | rfl <;> rfl
    · simp [h] at hev
      rcases hev with rfl | rfl | rfl | rfl | rfl | rfl <;> rfl

/-- When stages 1 and 2 succeed and stage 3 fails, the shared procedure
returns stage 3's error with exactly the events of stages 1-3. -/
theorem performVerification_events_stage3_err (env : Env E C)
    (ch : VerifierChannel E C) (coin : RandomCoin C) (s1 : Stage1Out E C)
    (s2 : Stage2Out E C) (evs1 evs2 evs3 : List (Ev E C)) (e : VerifierError)
    (h1 : stage1 env ch coin = (VOut.ok s1, evs1))
    (h2 : stage2 env ch s1.coin = (VOut.ok s2, evs2))
    (h3 : stage3 env ch s1.auxRand s1.constraintCoeffs s2.z s2.coin = (VOut.err e, evs3)) :
    performVerification env ch coin = (VOut.err e, evs1 ++ evs2 ++ evs3) := by
  unfold performVerification
  rw [h1]
  dsimp only
  rw [h2]
  dsimp only
  rw [h3]

/-- When stages 1-3 succeed, the shared procedure neither panics nor can
return the OOD inconsistency error any more. -/
theorem performVerification_after_stage3_ok (env : Env E C)
    (ch : VerifierChannel E C) (coin : RandomCoin C) (s1 : Stage1Out E C)
    (s2 : Stage2Out E C) (coin3 : RandomCoin C) (evs1 evs2 evs3 : List (Ev E C))
    (h1 : stage1 env ch coin = (VOut.ok s1, evs1))
    (h2 : stage2 env ch s1.coin = (VOut.ok s2, evs2))
    (h3 : stage3 env ch s1.auxRand s1.constraintCoeffs s2.z s2.coin = (VOut.ok coin3, evs3)) :
    (performVerification env ch coin).1
        ≠ VOut.err VerifierError.InconsistentOodConstraintEvaluations ∧
      (performVerification env ch coin).1 ≠ VOut.panic := by
  unfold performVerification
  rw [h1]
  dsimp only
  rw [h2]
  dsimp only
  rw [h3]
  dsimp only
  rcases h4 : stage4 env ch coin3 with ⟨r4, evs4⟩
  have hs4 := stage4_result env ch coin3
  rw [h4] at hs4
  cases r4 with
  | panic => exact absurd rfl hs4.1
  | err e4 =>
      rcases hs4.2 e4 rfl with rfl | rfl <;> simp
  | ok p4 =>
      rcases p4 with ⟨dc, fri, coin4⟩
      dsimp only
      rcases h5 : stage5 env ch coin4 with ⟨r5, evs5⟩
      have hs5 := stage5_result env ch coin4
      rw [h5] at hs5
      cases r5 with
      | panic => exact absurd rfl hs5.1
      | err e5 =>
          rcases hs5.2.2 e5 rfl with rfl | rfl <;> simp
      | ok p5 =>
          rcases p5 with ⟨qs, coin5⟩
          dsimp only
          rcases h6 : stage6 ch qs with ⟨r6, evs6⟩
          have hs6 := stage6_result ch qs
          rw [h6] at hs6
          cases r6 with
          | panic => exact absurd rfl hs6.1
          | err e6 =>
              rcases hs6.2 e6 rfl with rfl | rfl <;> simp
          | ok p6 =>
              rcases p6 with ⟨mainStates, auxStates, ces⟩
              dsimp only
              rcases h7 : stage7 env ch qs s2.z dc mainStates auxStates ces fri
                  with ⟨r7, evs7⟩
              have hs7 := stage7_result env ch qs s2.z dc mainStates auxStates ces fri
              rw [h7] at hs7
              cases r7 with
              | panic => exact absurd rfl hs7.1
              | err e7 =>
                  have := hs7.2 e7 rfl
                  subst this
                  simp
              | ok u => simp

/-- The shared procedure panics exactly when the channel's list of trace
commitments is empty. -/
theorem performVerification_panic_iff (env : Env E C) (ch : VerifierChannel E C)
    (coin : RandomCoin C) :
    (performVerification env ch coin).1 = VOut.panic ↔ ch.traceCommitments = [] := by
  constructor
  · intro h
    by_contra hne
    rcases h1 : stage1 env ch coin with ⟨r1, evs1⟩
    have hiff := stage1_panic_iff env ch coin
    rw [h1] at hiff
    cases r1 with
    | panic => exact hne (hiff.mp rfl)
    | err e =>
        unfold performVerification at h
        rw [h1] at h
        simp at h
    | ok s1 =>
        rcases h2 : stage2 env ch s1.coin with ⟨r2, evs2⟩
        have hs2 := stage2_result env ch s1.coin
        rw [h2] at hs2
        cases r2 with
        | panic => exact hs2.1 rfl
        | err e2 =>
            unfold performVerification at h
            rw [h1] at h
            dsimp only at h
            rw [h2] at h
            simp at h
        | ok s2 =>
            rcases h3 : stage3 env ch s1.auxRand s1.constraintCoeffs s2.z s2.coin
                with ⟨r3, evs3⟩
            have hs3 := stage3_result env ch s1.auxRand s1.constraintCoeffs s2.z s2.coin
            rw [h3] at hs3
            cases r3 with
            | panic => exact hs3.1 rfl
            | err e3 =>
                have := performVerification_events_stage3_err env ch coin s1 s2
                  evs1 evs2 evs3 e3 h1 h2 h3
                rw [this] at h
                simp at h
            | ok coin3 =>
                have := performVerification_after_stage3_ok env ch coin s1 s2 coin3
                  evs1 evs2 evs3 h1 h2 h3
                exact this.2 h
  · intro h
    rcases h1 : stage1 env ch coin with ⟨r1, evs1⟩
    have hiff := stage1_panic_iff env ch coin
    rw [h1] at hiff
    have : r1 = VOut.panic := hiff.mpr h
    subst this
    unfold performVerification
    rw [h1]

/-- On success, the auxiliary-segment loop's events are exactly the
alternating draw/reseed pattern in segment order. -/
theorem processAuxSegments_ok_events (env : Env E C) :
    ∀ (cs : List C) (i : Nat) (coin : RandomCoin C) (auxs : List (List E))
      (coin' : RandomCoin C) (evs : List (Ev E C)),
      processAuxSegments env cs i coin = (Except.ok (auxs, coin'), evs) →
      evs = auxSegmentEvents auxs cs i := by
  intro cs
  induction cs with
  | nil =>
      intro i coin auxs coin' evs h
      unfold processAuxSegments at h
      injection h with h1 h2
      injection h1 with h1
      injection h1 with ha hb
      subst ha
      subst h2
      simp [auxSegmentEvents]
  | cons c rest ih =>
      intro i coin auxs coin' evs h
      unfold processAuxSegments at h
      rcases hdraw : env.getAuxTraceSegmentRandomElements i coin with he | ⟨es, coin1⟩
      · rw [hdraw] at h; simp at h
      · rw [hdraw] at h
        simp only at h
        rcases hrec : processAuxSegments env rest (i + 1) (coin1.reseed c) with ⟨r, evs2⟩
        rw [hrec] at h
        cases r with
        | error e2 => simp at h
        | ok p =>
            rcases p with ⟨auxs2, coin3⟩
            simp only at h
            injection h with h1 h2
            injection h1 with h1
            injection h1 with ha hb
            subst h2
            subst hb
            rw [← ha]
            have h3 := ih (i + 1) (coin1.reseed c) auxs2 coin3 evs2
            rw [hrec] at h3
            rw [h3 rfl]
            simp [auxSegmentEvents]

/-- The events of the whole shared procedure start with the events of stage 1. -/
theorem performVerification_events_prefix (env : Env E C)
    (ch : VerifierChannel E C) (coin : RandomCoin C) :
    ∃ rest, (performVerification env ch coin).2 = (stage1 env ch coin).2 ++ rest := by
  unfold performVerification
  rcases h1 : stage1 env ch coin with ⟨r1, evs1⟩
  cases r1 with
  | err e => exact ⟨[], by simp⟩
  | panic => exact ⟨[], by simp⟩
  | ok s1 =>
      dsimp only
      rcases h2 : stage2 env ch s1.coin with ⟨r2, evs2⟩
      cases r2 with
      | err e => exact ⟨evs2, rfl⟩
      | panic => exact ⟨evs2, rfl⟩
      | ok s2 =>
          dsimp only
          rcases h3 : stage3 env ch s1.auxRand s1.constraintCoeffs s2.z s2.coin
              with ⟨r3, evs3⟩
          cases r3 with
          | err e => exact ⟨evs2 ++ evs3, by simp⟩
          | panic => exact ⟨evs2 ++ evs3, by simp⟩
          | ok coin3 =>
              dsimp only
              rcases h4 : stage4 env ch coin3 with ⟨r4, evs4⟩
              cases r4 with
              | err e => exact ⟨evs2 ++ evs3 ++ evs4, by simp⟩
              | panic => exact ⟨evs2 ++ evs3 ++ evs4, by simp⟩
              | ok p4 =>
                  rcases p4 with ⟨dc, fri, coin4⟩
                  dsimp only
                  rcases h5 : stage5 env ch coin4 with ⟨r5, evs5⟩
                  cases r5 with
                  | err e => exact ⟨evs2 ++ evs3 ++ evs4 ++ evs5, by simp⟩
                  | panic => exact ⟨evs2 ++ evs3 ++ evs4 ++ evs5, by simp⟩
                  | ok p5 =>
                      rcases p5 with ⟨qs, coin5⟩
                      dsimp only
                      rcases h6 : stage6 ch qs with ⟨r6, evs6⟩
                      cases r6 with
                      | err e => exact ⟨evs2 ++ evs3 ++ evs4 ++ evs5 ++ evs6, by simp⟩
                      | panic => exact ⟨evs2 ++ evs3 ++ evs4 ++ evs5 ++ evs6, by simp⟩
                      | ok p6 =>
                          rcases p6 with ⟨mainStates, auxStates, ces⟩
                          dsimp only
                          rcases h7 : stage7 env ch qs s2.z dc mainStates auxStates ces fri
                              with ⟨r7, evs7⟩
                          exact ⟨evs2 ++ evs3 ++ evs4 ++ evs5 ++ evs6 ++ evs7, by simp⟩

end StageLemmas

section Claims

variable {E C PI : Type} [CommRing E] [DecidableEq E]

/-- C1: In stage 3 of the shared verification procedure, for every proof
reaching that stage (stages 1 and 2 succeeded), the verifier computes
`ood_constraint_evaluation_2` as the sum over `i` of `z^i` times the `i`-th
out-of-domain constraint-composition-column evaluation read from the channel,
and returns `InconsistentOodConstraintEvaluations` if and only if this value
differs from `ood_constraint_evaluation_1` computed by the constraint
evaluator from the OOD frame; on that error it returns before any
proof-of-work, query-position, opening-read, or DEEP/FRI work is performed. -/
theorem ood_consistency_check (env : Env E C) (ch : VerifierChannel E C)
    (coin : RandomCoin C) (s1 : Stage1Out E C) (s2 : Stage2Out E C)
    (evs1 evs2 : List (Ev E C))
    (h1 : stage1 env ch coin = (VOut.ok s1, evs1))
    (h2 : stage2 env ch s1.coin = (VOut.ok s2, evs2)) :
    (oodConstraintEvaluation2 s2.z ch.oodConstraintEvaluations
        = ∑ i in Finset.range ch.oodConstraintEvaluations.length,
            s2.z ^ i * ch.oodConstraintEvaluations.getD i 0) ∧
    ((performVerification env ch coin).1
        = VOut.err VerifierError.InconsistentOodConstraintEvaluations
      ↔ env.evaluateConstraints s1.constraintCoeffs ch.oodMainTraceFrame
          ch.oodAuxTraceFrame s1.auxRand s2.z
        ≠ oodConstraintEvaluation2 s2.z ch.oodConstraintEvaluations) ∧
    (env.evaluateConstraints s1.constraintCoeffs ch.oodMainTraceFrame
        ch.oodAuxTraceFrame s1.auxRand s2.z
        ≠ oodConstraintEvaluation2 s2.z ch.oodConstraintEvaluations →
      ∀ ev ∈ (performVerification env ch coin).2, ev.isLateWork = false) := by
  refine ⟨oodConstraintEvaluation2_eq_sum s2.z ch.oodConstraintEvaluations, ?_⟩
  rcases h3 : stage3 env ch s1.auxRand s1.constraintCoeffs s2.z s2.coin with ⟨r3, evs3⟩
  have hs3 := stage3_result env ch s1.auxRand s1.constraintCoeffs s2.z s2.coin
  rw [h3] at hs3
  cases r3 with
  | panic => exact absurd rfl hs3.1
  | err e3 =>
      have he3 := hs3.2.2 e3 rfl
      subst he3
      have hne := hs3.2.1.mp rfl
      have hperf := performVerification_events_stage3_err env ch coin s1 s2
        evs1 evs2 evs3 VerifierError.InconsistentOodConstraintEvaluations h1 h2 h3
      constructor
      · rw [hperf]
        simp [hne]
      · intro _ ev hev
        rw [hperf] at hev
        simp only [List.mem_append] at hev
        rcases hev with (hev | hev) | hev
        · have := stage1_events_early env ch coin
          rw [h1] at this
          exact this ev hev
        · have := stage2_events_early env ch s1.coin
          rw [h2] at this
          exact this ev hev
        · have := stage3_events_early env ch s1.auxRand s1.constraintCoeffs s2.z s2.coin
          rw [h3] at this
          exact this ev hev
  | ok coin3 =>
      have heq : env.evaluateConstraints s1.constraintCoeffs ch.oodMainTraceFrame
          ch.oodAuxTraceFrame s1.auxRand s2.z
          = oodConstraintEvaluation2 s2.z ch.oodConstraintEvaluations := by
        by_contra hne
        have := hs3.2.1.mpr hne
        simp at this
      have hperf := performVerification_after_stage3_ok env ch coin s1 s2 coin3
        evs1 evs2 evs3 h1 h2 h3
      constructor
      · constructor
        · intro h
          exact absurd h hperf.1
        · intro hne
          exact absurd heq hne
      · intro hne
        exact absurd heq hne

/-- Concrete stage-1 output of the trivial environment. -/
def s1W : Stage1Out Int Int :=
  Stage1Out.mk [] [] (RandomCoin.mk [] [CoinInput.com 5] 0)

/-- Concrete stage-2 output of the trivial environment. -/
def s2W : Stage2Out Int Int :=
  Stage2Out.mk 0 (RandomCoin.mk [] [CoinInput.com 5, CoinInput.com 6] 0)

/-- A channel identical to the trivial one except that its OOD
constraint-composition evaluations reduce to 1 while the constraint evaluator
recomputes 0, so the stage-3 consistency check fails. -/
def chBad : VerifierChannel Int Int :=
  VerifierChannel.mk [5] 6 (EvaluationFrame.mk [1] [2]) none [1] 0
    (fun _ => Except.ok ([], none))
    (fun _ => Except.ok [])

/-- Witness for C1 at a channel whose OOD evaluations are inconsistent: both
stage hypotheses hold by computation, the theorem applies, the inconsistency
error is returned and no stage-4-or-later event is emitted. -/
theorem ood_consistency_check_witness :
    (oodConstraintEvaluation2 s2W.z chBad.oodConstraintEvaluations
        = ∑ i in Finset.range chBad.oodConstraintEvaluations.length,
            s2W.z ^ i * chBad.oodConstraintEvaluations.getD i 0) ∧
    ((performVerification envTriv chBad coinTriv).1
        = VOut.err VerifierError.InconsistentOodConstraintEvaluations
      ↔ envTriv.evaluateConstraints s1W.constraintCoeffs chBad.oodMainTraceFrame
          chBad.oodAuxTraceFrame s1W.auxRand s2W.z
        ≠ oodConstraintEvaluation2 s2W.z chBad.oodConstraintEvaluations) ∧
    (∀ ev ∈ (performVerification envTriv chBad coinTriv).2, ev.isLateWork = false) :=
  ⟨(ood_consistency_check envTriv chBad coinTriv s1W s2W
      [Ev.readTraceCommitments [5], Ev.reseed 5, Ev.drawConstraintCoeffs []]
      [Ev.readConstraintCommitment 6, Ev.reseed 6, Ev.drawZ 0] rfl rfl).1,
   (ood_consistency_check envTriv chBad coinTriv s1W s2W
      [Ev.readTraceCommitments [5], Ev.reseed 5, Ev.drawConstraintCoeffs []]
      [Ev.readConstraintCommitment 6, Ev.reseed 6, Ev.drawZ 0] rfl rfl).2.1,
   (ood_consistency_check envTriv chBad coinTriv s1W s2W
      [Ev.readTraceCommitments [5], Ev.reseed 5, Ev.drawConstraintCoeffs []]
      [Ev.readConstraintCommitment 6, Ev.reseed 6, Ev.drawZ 0] rfl rfl).2.2
      (by decide)⟩

/-- C2: `verify` is deterministic: two runs over the same statically fixed
data (same proof bytes, AIR and hash parameters, bundled in the `VerifyEnv`)
and byte-identical public inputs produce identical outputs — the `RunOut`
contains the result and the full event trace, whose events carry the drawn
out-of-domain point, the coefficient vectors and the query positions. -/
theorem verify_deterministic (V1 V2 : VerifyEnv E C PI) (p1 p2 : PI)
    (hV : V1 = V2) (hp : p1 = p2) : verify V1 p1 = verify V2 p2 := by
  rw [hV, hp]

/-- Witness for C2 at the trivial environment. -/
theorem verify_deterministic_witness :
    verify verifyEnvTriv () = verify verifyEnvTriv () :=
  verify_deterministic verifyEnvTriv verifyEnvTriv () () rfl rfl

/-- In both unsupported-extension branches, `verify` stops with the
unsupported-extension error for the declared degree, before building the coin
or the channel. -/
theorem verify_unsupported_run (V : VerifyEnv E C PI) (p : PI) (d : Nat)
    (hd : (V.airFieldExtension = FieldExtension.quadratic ∧ V.quadSupported = false ∧ d = 2)
        ∨ (V.airFieldExtension = FieldExtension.cubic ∧ V.cubeSupported = false ∧ d = 3)) :
    verify V p = RunOut.mk (VOut.err (VerifierError.UnsupportedFieldExtension d))
        (V.serializePI p ++ V.proofContextBytes)
        [Ev.serializePubInputs, Ev.serializeContext, Ev.airNew] := by
  rcases hd with ⟨hext, hsup, rfl⟩ | ⟨hext, hsup, rfl⟩ <;>
  · unfold verify
    rw [hext]
    simp [hsup]

/-- C3: for every proof whose AIR declares a quadratic or cubic field
extension that the base field does not support, `verify` rejects with the
unsupported-extension error naming the degree, and no transcript operation
(coin construction, reseed or draw) is performed: the whole event trace is
just the seed serialization and AIR instantiation. -/
theorem unsupported_extension_gate (V : VerifyEnv E C PI) (p : PI) (d : Nat)
    (hd : (V.airFieldExtension = FieldExtension.quadratic ∧ V.quadSupported = false ∧ d = 2)
        ∨ (V.airFieldExtension = FieldExtension.cubic ∧ V.cubeSupported = false ∧ d = 3)) :
    verify V p = RunOut.mk (VOut.err (VerifierError.UnsupportedFieldExtension d))
        (V.serializePI p ++ V.proofContextBytes)
        [Ev.serializePubInputs, Ev.serializeContext, Ev.airNew] ∧
      ∀ ev ∈ (verify V p).events, ev.isCoinOp = false := by
  have h := verify_unsupported_run V p d hd
  refine ⟨h, ?_⟩
  rw [h]
  intro ev hev
  simp only [List.mem_cons, List.not_mem_nil, or_false] at hev
  rcases hev with rfl | rfl | rfl <;> rfl

/-- A `verify` environment declaring a quadratic extension the base field
does not support. -/
def verifyEnvQuadU : VerifyEnv Int Int Unit :=
  VerifyEnv.mk (fun _ => [1, 2]) [3, 4] FieldExtension.quadratic false false
    (Except.ok chTriv) envTriv

/-- Witness for C3: the quadratic-unsupported environment is rejected with
degree 2 and an event trace free of transcript operations. -/
theorem unsupported_extension_gate_witness :
    verify verifyEnvQuadU ()
        = RunOut.mk (VOut.err (VerifierError.UnsupportedFieldExtension 2))
          (verifyEnvQuadU.serializePI () ++ verifyEnvQuadU.proofContextBytes)
          [Ev.serializePubInputs, Ev.serializeContext, Ev.airNew] ∧
      Ev.isCoinOp (Ev.airNew : Ev Int Int) = false :=
  ⟨(unsupported_extension_gate verifyEnvQuadU () 2 (Or.inl ⟨rfl, rfl, rfl⟩)).1,
   (unsupported_extension_gate verifyEnvQuadU () 2 (Or.inl ⟨rfl, rfl, rfl⟩)).2
     Ev.airNew (by decide)⟩

/-- C10: when the AIR declares an unsupported quadratic or cubic extension
and the proof is additionally malformed (channel construction fails with a
structural error), `verify` still returns the unsupported-extension error:
the extension-support check precedes channel construction in those branches. -/
theorem unsupported_extension_precedence (V : VerifyEnv E C PI) (p : PI)
    (d : Nat) (e : VerifierError)
    (hch : V.channelNew = Except.error e)
    (he : e ≠ VerifierError.UnsupportedFieldExtension d)
    (hd : (V.airFieldExtension = FieldExtension.quadratic ∧ V.quadSupported = false ∧ d = 2)
        ∨ (V.airFieldExtension = FieldExtension.cubic ∧ V.cubeSupported = false ∧ d = 3)) :
    (verify V p).result = VOut.err (VerifierError.UnsupportedFieldExtension d) ∧
      (verify V p).result ≠ VOut.err e := by
  have h := verify_unsupported_run V p d hd
  rw [h]
  constructor
  · rfl
  · intro hcontra
    injection hcontra with h2
    exact he h2.symm

/-- A `verify` environment declaring an unsupported quadratic extension whose
proof is also structurally malformed. -/
def verifyEnvQuadBad : VerifyEnv Int Int Unit :=
  VerifyEnv.mk (fun _ => [1, 2]) [3, 4] FieldExtension.quadratic false false
    (Except.error VerifierError.ProofDeserializationError) envTriv

/-- Witness for C10: with a malformed proof and an unsupported quadratic
extension, the unsupported-extension error takes precedence. -/
theorem unsupported_extension_precedence_witness :
    (verify verifyEnvQuadBad ()).result
        = VOut.err (VerifierError.UnsupportedFieldExtension 2) ∧
      (verify verifyEnvQuadBad ()).result
        ≠ VOut.err VerifierError.ProofDeserializationError :=
  unsupported_extension_precedence verifyEnvQuadBad () 2
    VerifierError.ProofDeserializationError rfl (by decide) (Or.inl ⟨rfl, rfl, rfl⟩)

/-- The shared tail of `verify` keeps the seed it was given and only appends
events after those it received. -/
theorem verifyRun_events (V : VerifyEnv E C PI) (seed : List Nat)
    (evs : List (Ev E C)) :
    (verifyRun V seed evs).seed = seed ∧
      ∃ rest, (verifyRun V seed evs).events = evs ++ rest := by
  unfold verifyRun
  cases hch : V.channelNew with
  | error e => exact ⟨rfl, [Ev.coinNew seed], by simp⟩
  | ok ch =>
      dsimp only
      rcases hp : performVerification V.env ch (RandomCoin.new seed) with ⟨res, evs2⟩
      exact ⟨rfl, [Ev.coinNew seed] ++ [Ev.channelNew] ++ evs2, by simp⟩

/-- C8: for every proof and public inputs, the initial transcript seed is the
serialization of the public inputs followed by the proof's context, and the
run's first events are the two serializations followed by the AIR
instantiation — none of which is a transcript operation — so every reseed or
draw occurs after the seed is built. -/
theorem initial_seed_order (V : VerifyEnv E C PI) (p : PI) :
    (verify V p).seed = V.serializePI p ++ V.proofContextBytes ∧
      (∃ rest, (verify V p).events
          = [Ev.serializePubInputs, Ev.serializeContext, Ev.airNew] ++ rest) ∧
      ∀ ev ∈ ([Ev.serializePubInputs, Ev.serializeContext, Ev.airNew] : List (Ev E C)),
        ev.isCoinOp = false := by
  have h3 : ∀ ev ∈ ([Ev.serializePubInputs, Ev.serializeContext, Ev.airNew] : List (Ev E C)),
      ev.isCoinOp = false := by
    intro ev hev
    simp only [List.mem_cons, List.not_mem_nil, or_false] at hev
    rcases hev with rfl | rfl | rfl <;> rfl
  unfold verify
  cases hext : V.airFieldExtension
  · exact ⟨(verifyRun_events V _ _).1, (verifyRun_events V _ _).2, h3⟩
  · cases hsup : V.quadSupported
    · exact ⟨rfl, ⟨[], rfl⟩, h3⟩
    · exact ⟨(verifyRun_events V _ _).1, (verifyRun_events V _ _).2, h3⟩
  · cases hsup : V.cubeSupported
    · exact ⟨rfl, ⟨[], rfl⟩, h3⟩
    · exact ⟨(verifyRun_events V _ _).1, (verifyRun_events V _ _).2, h3⟩

/-- C4: in stage 5, for every proof reaching that stage, the verifier reads
the proof-of-work nonce and reseeds the transcript with it as a plain integer
(the stage's first two events), returns the proof-of-work failure exactly when
the leading-zero count after that reseed is strictly below the grinding
factor, and with grinding factor zero no nonce is ever rejected by this
check. -/
theorem pow_nonce_check (env : Env E C) (ch : VerifierChannel E C)
    (coin : RandomCoin C) :
    ((stage5 env ch coin).2.take 2
        = [Ev.readPowNonce ch.powNonce, Ev.reseedWithInt ch.powNonce]) ∧
    ((stage5 env ch coin).1 = VOut.err VerifierError.QuerySeedProofOfWorkVerificationFailed
      ↔ env.leadingZeros (coin.reseedInt ch.powNonce) < env.grindingFactor) ∧
    (env.grindingFactor = 0 →
      (stage5 env ch coin).1
        ≠ VOut.err VerifierError.QuerySeedProofOfWorkVerificationFailed) := by
  have hs5 := stage5_result env ch coin
  refine ⟨?_, hs5.2.1, ?_⟩
  · unfold stage5
    dsimp only
    by_cases hpow : env.leadingZeros (coin.reseedInt ch.powNonce) < env.grindingFactor
    · simp [hpow]
    · simp only [hpow, if_false]
      rcases hdraw : drawIntegersSpec env.nextNat env.ldeDomainSize env.numQueries
          drawIntegersAttempts [] (coin.reseedInt ch.powNonce) with he | ⟨qs, coin2⟩
      · simp
      · simp
  · intro h0 hcontra
    have hlt := hs5.2.1.mp hcontra
    rw [h0] at hlt
    exact Nat.not_lt_zero _ hlt

/-- Witness for C4 at the trivial environment (grinding factor zero). -/
theorem pow_nonce_check_witness :
    ((stage5 envTriv chTriv coinTriv).2.take 2
        = [Ev.readPowNonce chTriv.powNonce, Ev.reseedWithInt chTriv.powNonce]) ∧
    ((stage5 envTriv chTriv coinTriv).1
        = VOut.err VerifierError.QuerySeedProofOfWorkVerificationFailed
      ↔ envTriv.leadingZeros (coinTriv.reseedInt chTriv.powNonce)
          < envTriv.grindingFactor) ∧
    ((stage5 envTriv chTriv coinTriv).1
        ≠ VOut.err VerifierError.QuerySeedProofOfWorkVerificationFailed) :=
  ⟨(pow_nonce_check envTriv chTriv coinTriv).1,
   (pow_nonce_check envTriv chTriv coinTriv).2.1,
   (pow_nonce_check envTriv chTriv coinTriv).2.2 rfl⟩

/-- C5: in stage 1 the transcript operations occur in exactly this order:
read the trace commitments, reseed with the main commitment, then for each
auxiliary segment (in index order) draw that segment's random elements and
only afterwards reseed with its commitment, and finally draw the
constraint-composition coefficients; these stage-1 events open the whole
run's event trace. -/
theorem stage1_transcript_order (env : Env E C) (ch : VerifierChannel E C)
    (coin : RandomCoin C) (c0 : C) (rest : List C) (s1 : Stage1Out E C)
    (evs1 : List (Ev E C))
    (hcs : ch.traceCommitments = c0 :: rest)
    (h1 : stage1 env ch coin = (VOut.ok s1, evs1)) :
    evs1 = Ev.readTraceCommitments (c0 :: rest) :: Ev.reseed c0 ::
        (auxSegmentEvents s1.auxRand rest 0
          ++ [Ev.drawConstraintCoeffs s1.constraintCoeffs]) ∧
    ∃ tail, (performVerification env ch coin).2 = evs1 ++ tail := by
  constructor
  · unfold stage1 at h1
    rw [hcs] at h1
    dsimp only at h1
    rcases hrec : processAuxSegments env rest 0 (coin.reseed c0) with ⟨r, evs⟩
    rw [hrec] at h1
    cases r with
    | error e => simp at h1
    | ok p =>
        rcases p with ⟨auxs, coin2⟩
        dsimp only at h1
        rcases hcc : env.getConstraintCompositionCoefficients coin2 with he | ⟨ccoeffs, coin3⟩
        · rw [hcc] at h1; simp at h1
        · rw [hcc] at h1
          dsimp only at h1
          injection h1 with ha hb
          injection ha with ha
          subst ha
          rw [← hb]
          have hevs := processAuxSegments_ok_events env rest 0 (coin.reseed c0)
            auxs coin2 evs hrec
          rw [hevs]
          simp
  · have hpre := performVerification_events_prefix env ch coin
    rw [h1] at hpre
    exact hpre

/-- A channel with one auxiliary trace segment. -/
def chAux : VerifierChannel Int Int :=
  VerifierChannel.mk [5, 7] 6 (EvaluationFrame.mk [1] [2]) none [] 0
    (fun _ => Except.ok ([], none))
    (fun _ => Except.ok [])

/-- Concrete stage-1 output for the channel with one auxiliary segment. -/
def s1Aux : Stage1Out Int Int :=
  Stage1Out.mk [[]] [] (RandomCoin.mk [] [CoinInput.com 5, CoinInput.com 7] 0)

/-- Witness for C5 on a channel with a main and one auxiliary segment. -/
theorem stage1_transcript_order_witness :
    ([Ev.readTraceCommitments [5, 7], Ev.reseed 5, Ev.drawAuxRand 0 [],
        Ev.reseed 7, Ev.drawConstraintCoeffs []] : List (Ev Int Int))
      = Ev.readTraceCommitments (5 :: [7]) :: Ev.reseed 5 ::
        (auxSegmentEvents s1Aux.auxRand [7] 0
          ++ [Ev.drawConstraintCoeffs s1Aux.constraintCoeffs]) ∧
    ∃ tail, (performVerification envTriv chAux coinTriv).2
        = [Ev.readTraceCommitments [5, 7], Ev.reseed 5, Ev.drawAuxRand 0 [],
            Ev.reseed 7, Ev.drawConstraintCoeffs []] ++ tail :=
  stage1_transcript_order envTriv chAux coinTriv 5 [7] s1Aux
    [Ev.readTraceCommitments [5, 7], Ev.reseed 5, Ev.drawAuxRand 0 [],
      Ev.reseed 7, Ev.drawConstraintCoeffs []] rfl rfl

/-- C6 counterexample: the AIR-declared LDE domain size (8) differs from the
constructed FRI verifier's domain size (7), yet the shared verification
procedure succeeds — the orchestrator performs no such equality check (it is
a TODO in the source). -/
theorem lde_domain_size_not_enforced_cex :
    envTriv.ldeDomainSize = 8 ∧
    envTriv.friNew chTriv coinTriv = Except.ok (FriS.mk 7, coinTriv) ∧
    FriS.domainSize (FriS.mk 7) ≠ envTriv.ldeDomainSize ∧
    (performVerification envTriv chTriv coinTriv).1 = VOut.ok () :=
  ⟨rfl, rfl, by decide, rfl⟩

/-- C6 amended: verification does not enforce equality between the
AIR-declared LDE domain size and the FRI verifier's domain size: for every
value `d` the FRI verifier reports, the run over the otherwise-identical
environment still succeeds. -/
theorem lde_domain_size_not_enforced (d : Nat) :
    (performVerification (envFri d) chTriv coinTriv).1 = VOut.ok () := rfl

/-- C7: for every proof reaching stage 5 whose query-position draw succeeds,
the drawn query position set has exactly the configured number of queries,
pairwise-distinct indices, all strictly below the LDE domain size; and the
stage returns the random-coin error exactly when the proof-of-work check
passed but the rejection sampler exhausted its retry bound. -/
theorem query_positions_check (env : Env E C) (ch : VerifierChannel E C)
    (coin : RandomCoin C) (hb : 0 < env.ldeDomainSize) :
    (∀ qs coin2, (stage5 env ch coin).1 = VOut.ok (qs, coin2) →
        qs.length = env.numQueries ∧ qs.Nodup ∧ ∀ x ∈ qs, x < env.ldeDomainSize) ∧
    ((stage5 env ch coin).1 = VOut.err VerifierError.RandomCoinError ↔
      (¬ env.leadingZeros (coin.reseedInt ch.powNonce) < env.grindingFactor ∧
        drawIntegersSpec env.nextNat env.ldeDomainSize env.numQueries
          drawIntegersAttempts [] (coin.reseedInt ch.powNonce) = Except.error ())) := by
  unfold stage5
  dsimp only
  by_cases hpow : env.leadingZeros (coin.reseedInt ch.powNonce) < env.grindingFactor
  · constructor
    · intro qs coin2 h
      simp [hpow] at h
    · simp [hpow]
  · simp only [hpow, if_false]
    rcases hdraw : drawIntegersSpec env.nextNat env.ldeDomainSize env.numQueries
        drawIntegersAttempts [] (coin.reseedInt ch.powNonce) with he | ⟨qs0, coin0⟩
    · constructor
      · intro qs coin2 h
        simp at h
      · simp [hpow, hdraw]
    · constructor
      · intro qs coin2 h
        simp at h
        have hqs : qs0 = qs := h.1
        subst hqs
        exact drawIntegersSpec_ok env.nextNat env.ldeDomainSize env.numQueries hb
          drawIntegersAttempts [] (coin.reseedInt ch.powNonce) qs0 coin0
          List.nodup_nil (by intro x hx; simp at hx) hdraw
      · simp [hpow, hdraw]

/-- Witness for C7 at the trivial environment: the single drawn position is 0,
in range and distinct. -/
theorem query_positions_check_witness :
    ([0] : List Nat).length = envTriv.numQueries ∧ ([0] : List Nat).Nodup ∧
      ∀ x ∈ ([0] : List Nat), x < envTriv.ldeDomainSize :=
  (query_positions_check envTriv chTriv coinTriv (by decide)).1 [0]
    (RandomCoin.mk [] [CoinInput.int 0] 0) rfl

/-- The shared tail of `verify` never panics when every successfully
constructed channel has a nonempty commitment list. -/
theorem verifyRun_no_panic (V : VerifyEnv E C PI) (seed : List Nat)
    (evs : List (Ev E C))
    (hch : ∀ ch, V.channelNew = Except.ok ch → ch.traceCommitments ≠ []) :
    (verifyRun V seed evs).result ≠ VOut.panic := by
  unfold verifyRun
  cases hc : V.channelNew with
  | error e => simp
  | ok ch =>
      dsimp only
      rcases hp : performVerification V.env ch (RandomCoin.new seed) with ⟨res, evs2⟩
      dsimp only
      intro hcontra
      have hiff := performVerification_panic_iff V.env ch (RandomCoin.new seed)
      rw [hp] at hiff
      exact hch ch hc (hiff.mp hcontra)

/-- C9: `verify` never panics on a malformed but well-typed proof: when the
channel is built by the spec-modelled `VerifierChannel::new` (which rejects
any shape inconsistent with the context, whose declared number of trace
segments is at least one), every outcome is `ok` or a typed `VerifierError` —
never the panic outcome. -/
theorem verify_no_panic (V : VerifyEnv E C PI) (p : PI) (n : Nat)
    (raw : VerifierChannel E C)
    (hV : V.channelNew = channelNewSpec n raw) (hn : 1 ≤ n) :
    (verify V p).result ≠ VOut.panic := by
  have hch : ∀ ch, V.channelNew = Except.ok ch → ch.traceCommitments ≠ [] := by
    intro ch hok
    rw [hV] at hok
    unfold channelNewSpec at hok
    by_cases hlen : raw.traceCommitments.length = n
    · simp only [hlen, if_true] at hok
      injection hok with hok
      subst hok
      intro hnil
      rw [hnil] at hlen
      simp at hlen
      rw [← hlen] at hn
      exact Nat.not_succ_le_zero 0 hn
    · simp [hlen] at hok
  unfold verify
  cases hext : V.airFieldExtension
  · exact verifyRun_no_panic V _ _ hch
  · cases hsup : V.quadSupported
    · simp
    · exact verifyRun_no_panic V _ _ hch
  · cases hsup : V.cubeSupported
    · simp
    · exact verifyRun_no_panic V _ _ hch

/-- A `verify` environment whose channel is built by the spec-modelled
constructor. -/
def verifyEnvSpec : VerifyEnv Int Int Unit :=
  VerifyEnv.mk (fun _ => [1, 2]) [3, 4] FieldExtension.none true true
    (channelNewSpec 1 chTriv) envTriv

/-- Witness for C8 at the trivial environment, with the no-transcript-work
conjunct instantiated at the AIR-instantiation event. -/
theorem initial_seed_order_witness :
    (verify verifyEnvTriv ()).seed
        = verifyEnvTriv.serializePI () ++ verifyEnvTriv.proofContextBytes ∧
      (∃ rest, (verify verifyEnvTriv ()).events
          = [Ev.serializePubInputs, Ev.serializeContext, Ev.airNew] ++ rest) ∧
      Ev.isCoinOp (Ev.airNew : Ev Int Int) = false :=
  ⟨(initial_seed_order verifyEnvTriv ()).1,
   (initial_seed_order verifyEnvTriv ()).2.1,
   (initial_seed_order verifyEnvTriv ()).2.2 Ev.airNew (by decide)⟩

/-- Witness for C9: the spec-modelled channel constructor accepts the trivial
channel and the run does not panic. -/
theorem verify_no_panic_witness :
    (verify verifyEnvSpec ()).result ≠ VOut.panic :=
  verify_no_panic verifyEnvSpec () 1 chTriv rfl (by decide)

end Claims

end Winterfell
